import Mathlib

/-!
Shallow embedding of the measurement trackers of optimum-benchmark
(`optimum_benchmark/trackers/energy.py`, `optimum_benchmark/trackers/latency.py`)
and of the report-gathering step of the torchrun launcher
(`optimum_benchmark/launchers/torchrun/launcher.py`).

Python floats are modelled as exact rationals (`Rat`); the one square root in
the code (`Latency.from_values`, `(...) ** 0.5`) is modelled as `Real.sqrt`.
A Python value of `Optional[X]` is modelled as `Option X` (with `none` for an
absent/`None` measurement), and a function that may raise is modelled as
returning `Except String _`, the error string carrying the exception message.
-/

set_option maxHeartbeats 1000000

def ENERGY_UNIT : String := "kWh"

def LATENCY_UNIT : String := "s"

/-- The `Energy` dataclass of `trackers/energy.py`: a unit and four
component readings (cpu, ram, gpu, total), each a float. -/
structure Energy where
  unit : String
  cpu : Rat
  ram : Rat
  gpu : Rat
  total : Rat
deriving Repr, DecidableEq

/-- Python `max` over a non-empty sequence, seeded with its first element:
`max(seq) = fold max over the rest`. -/
def listMax (x : Rat) (xs : List Rat) : Rat := xs.foldl max x

/-- `Energy.aggregate`: returns `None` for an empty or all-`None` input list,
raises when present and absent measurements are mixed, and otherwise takes the
component-wise `max` of each field, with the fixed unit `ENERGY_UNIT`. -/
def Energy.aggregate (energies : List (Option Energy)) : Except String (Option Energy) :=
  if energies.length = 0 ∨ energies.all Option.isNone then
    Except.ok none
  else if energies.any Option.isNone then
    Except.error "Some energy measurements are missing"
  else
    match energies.filterMap id with
    | [] => Except.error "max() arg is an empty sequence"  -- unreachable: guarded above
    | e :: es =>
      Except.ok (some
        { unit := ENERGY_UNIT
          cpu := listMax e.cpu (es.map Energy.cpu)
          ram := listMax e.ram (es.map Energy.ram)
          gpu := listMax e.gpu (es.map Energy.gpu)
          total := listMax e.total (es.map Energy.total) })

/-- The `Latency` dataclass of `trackers/latency.py`: a unit, the derived mean
and standard deviation, and the raw sample values. -/
structure Latency where
  unit : String
  mean : Rat
  stdev : Real
  values : List Rat

/-- `Latency.from_values`: mean is `sum(values)/len(values)` when the list is
non-empty and `0` otherwise; stdev is the population standard deviation
`(sum((v - mean)**2)/len(values)) ** 0.5` when there are at least two samples
and `0` otherwise. -/
noncomputable def Latency.from_values (values : List Rat) (unit : String) : Latency :=
  let mean : Rat := if values.length > 0 then values.sum / (values.length : Rat) else 0
  let stdev : Real :=
    if values.length > 1 then
      Real.sqrt ((((values.map (fun v => (v - mean) ^ 2)).sum / (values.length : Rat) : Rat) : Real))
    else 0
  { unit := unit, mean := mean, stdev := stdev, values := values }

/-- `Latency.aggregate`: returns `None` for an empty or all-`None` input list,
raises when present and absent measurements are mixed, and otherwise rebuilds a
`Latency` via `from_values` from the concatenation (in input order) of the
inputs' `values`, with the first input's unit. -/
noncomputable def Latency.aggregate (latencies : List (Option Latency)) :
    Except String (Option Latency) :=
  if latencies.length = 0 ∨ latencies.all Option.isNone then
    Except.ok none
  else if latencies.any Option.isNone then
    Except.error "Some latency measurements are missing"
  else
    match latencies.head? with
    | some (some l0) =>
      Except.ok (some
        (Latency.from_values ((latencies.filterMap id).map Latency.values).flatten l0.unit))
    | _ => Except.error "AttributeError"  -- unreachable: guarded above

/-- The `Throughput` dataclass of `trackers/latency.py`. -/
structure Throughput where
  unit : String
  value : Rat
deriving Repr, DecidableEq

/-- `Throughput.aggregate`: raises on an empty input list and when any input is
absent; otherwise sums the inputs' values, with the first input's unit. -/
def Throughput.aggregate (throughputs : List (Option Throughput)) : Except String Throughput :=
  if throughputs.length = 0 then
    Except.error "No throughput measurements to aggregate"
  else if throughputs.any Option.isNone then
    Except.error "Some throughput measurements are missing"
  else
    match throughputs.head? with
    | some (some t0) =>
      Except.ok { unit := t0.unit, value := ((throughputs.filterMap id).map Throughput.value).sum }
    | _ => Except.error "AttributeError"  -- unreachable: guarded above

/-- `Throughput.from_latency`: `volume / latency.mean if latency.mean > 0 else 0`. -/
def Throughput.from_latency (latency : Latency) (volume : Int) (unit : String) : Throughput :=
  { unit := unit, value := if latency.mean > 0 then (volume : Rat) / latency.mean else 0 }

/-- The `Efficiency` dataclass of `trackers/energy.py`. -/
structure Efficiency where
  unit : String
  value : Rat
deriving Repr, DecidableEq

/-- `Efficiency.aggregate`: raises on an empty input list and when any input is
absent; otherwise takes the arithmetic mean of the inputs' values, with the
first input's unit. -/
def Efficiency.aggregate (efficiencies : List (Option Efficiency)) : Except String Efficiency :=
  if efficiencies.length = 0 then
    Except.error "No efficiency measurements to aggregate"
  else if efficiencies.any Option.isNone then
    Except.error "Some efficiency measurements are None"
  else
    match efficiencies.head? with
    | some (some e0) =>
      Except.ok
        { unit := e0.unit
          value := ((efficiencies.filterMap id).map Efficiency.value).sum / (efficiencies.length : Rat) }
    | _ => Except.error "AttributeError"  -- unreachable: guarded above

/-- `Efficiency.from_energy`: `volume / energy.total if energy.total > 0 else 0`. -/
def Efficiency.from_energy (energy : Energy) (volume : Int) (unit : String) : Efficiency :=
  { unit := unit, value := if energy.total > 0 then (volume : Rat) / energy.total else 0 }

/-- The event lists of a `LatencyTracker` on the host-clock (CPU) timing path:
`start_events` and `end_events` hold `time.perf_counter()` timestamps. -/
structure TrackerState where
  start_events : List Rat
  end_events : List Rat
deriving Repr, DecidableEq

/-- One `track()` region on the host-clock path whose body completes normally:
`_cpu_latency` appends a start timestamp before the `yield` and an end
timestamp after it. -/
def LatencyTracker.trackCpu (s : TrackerState) (startT endT : Rat) : TrackerState :=
  { start_events := s.start_events ++ [startT], end_events := s.end_events ++ [endT] }

/-- One `track()` region on the host-clock path whose body raises: the start
timestamp was already appended before the `yield`, the exception propagates
through the generator, and the end timestamp is never appended. -/
def LatencyTracker.trackCpuRaise (s : TrackerState) (startT : Rat) : TrackerState :=
  { start_events := s.start_events ++ [startT], end_events := s.end_events }

/-- `LatencyTracker.get_latency` on the host-clock path: computes
`end_events[i] - start_events[i]` for `i in range(len(start_events))` — an
`IndexError` when `end_events` is shorter than `start_events` — and feeds the
list of differences to `Latency.from_values`. -/
noncomputable def LatencyTracker.get_latency (s : TrackerState) : Except String Latency :=
  if s.end_events.length < s.start_events.length then
    Except.error "IndexError: list index out of range"
  else
    Except.ok (Latency.from_values (List.zipWith (fun e b => e - b) s.end_events s.start_events)
      LATENCY_UNIT)

/-- `LatencyTracker.get_throughput`: `Throughput.from_latency(self.get_latency(), volume, unit)`. -/
noncomputable def LatencyTracker.get_throughput (s : TrackerState) (volume : Int) (unit : String) :
    Except String Throughput :=
  (LatencyTracker.get_latency s).map (fun l => Throughput.from_latency l volume unit)

/-- Outcome of `TorchrunLauncher.launch` after the isolated child process has
been joined: either the (abstract) aggregation of the listed rank reports is
returned, or a `RuntimeError` with the given message is raised. -/
inductive LaunchOutcome (α : Type) where
  | aggregated (reports : List α)
  | error (msg : String)
deriving Repr, DecidableEq

/-- The gather step of `TorchrunLauncher.launch` (lines 62-77 of
`launchers/torchrun/launcher.py`): if `benchmark_report_rank_{rank}.json`
exists for every `rank in range(nproc_per_node)` the reports are loaded and
aggregated; otherwise, if the isolated process exited non-zero, a
`RuntimeError` reporting the exit code is raised; otherwise a `RuntimeError`
reporting the missing report is raised. `reportFile r` is the content of rank
`r`'s report file, `none` when the file does not exist. -/
def TorchrunLauncher.gatherStep {α : Type} (nproc : Nat) (exitcode : Int)
    (reportFile : Nat → Option α) : LaunchOutcome α :=
  if (List.range nproc).all (fun r => (reportFile r).isSome) then
    LaunchOutcome.aggregated ((List.range nproc).filterMap reportFile)
  else if exitcode ≠ 0 then
    LaunchOutcome.error ("Process exited with non-zero code " ++ toString exitcode ++ ".")
  else
    LaunchOutcome.error "Could not retrieve report from isolated process."

/-- `m` is the maximum of the list `xs`: it is attained and bounds every element. -/
def IsMaxOf (m : Rat) (xs : List Rat) : Prop := m ∈ xs ∧ ∀ x ∈ xs, x ≤ m

deriving instance DecidableEq for Except

theorem listMax_isMaxOf (x : Rat) (xs : List Rat) : IsMaxOf (listMax x xs) (x :: xs) := by
  unfold listMax
  induction xs generalizing x with
  | nil => exact ⟨List.mem_singleton.mpr rfl, by simp⟩
  | cons y ys ih =>
    obtain ⟨hmem, hub⟩ := ih (max x y)
    have hfold : List.foldl max x (y :: ys) = List.foldl max (max x y) ys := rfl
    rw [hfold]
    constructor
    · rcases List.mem_cons.mp hmem with h | h
      · rcases max_choice x y with hxy | hxy
        · rw [h, hxy]; exact List.mem_cons_self _ _
        · rw [h, hxy]; exact List.mem_cons_of_mem _ (List.mem_cons_self _ _)
      · exact List.mem_cons_of_mem _ (List.mem_cons_of_mem _ h)
    · have hhead : max x y ≤ List.foldl max (max x y) ys :=
        hub (max x y) (List.mem_cons_self _ _)
      intro z hz
      rcases List.mem_cons.mp hz with h | h
      · rw [h]; exact le_trans (le_max_left x y) hhead
      · rcases List.mem_cons.mp h with h | h
        · rw [h]; exact le_trans (le_max_right x y) hhead
        · exact hub z (List.mem_cons_of_mem _ h)

theorem filterMap_id_map_some {α : Type} (es : List α) :
    (es.map some).filterMap id = es := by
  induction es with
  | nil => rfl
  | cons e es ih => simp [List.filterMap_cons, ih]

/-- C1: aggregating a non-empty list of present `Energy` values yields an
`Energy` whose `cpu`, `gpu`, `ram` and `total` are each the component-wise
maximum over the inputs; an empty or all-absent list aggregates to an absent
result, and mixing present and absent inputs raises a `ValueError`. -/
theorem C1_energy_aggregate_componentwise_max (l : List (Option Energy)) (es : List Energy) :
    ((l = [] ∨ l.all Option.isNone) → Energy.aggregate l = Except.ok none)
    ∧ ((l.any Option.isNone ∧ l.any Option.isSome) →
        Energy.aggregate l = Except.error "Some energy measurements are missing")
    ∧ (l = es.map some → es ≠ [] →
        ∃ a, Energy.aggregate l = Except.ok (some a)
          ∧ IsMaxOf a.cpu (es.map Energy.cpu)
          ∧ IsMaxOf a.gpu (es.map Energy.gpu)
          ∧ IsMaxOf a.ram (es.map Energy.ram)
          ∧ IsMaxOf a.total (es.map Energy.total)) := by
  refine ⟨?_, ?_, ?_⟩
  · intro h
    have hcond : l.length = 0 ∨ l.all Option.isNone := by
      rcases h with h | h
      · exact Or.inl (by simp [h])
      · exact Or.inr h
    unfold Energy.aggregate
    rw [if_pos hcond]
  · rintro ⟨hnone, hsome⟩
    obtain ⟨x, hx, hxs⟩ := List.any_eq_true.mp hsome
    have hc1 : ¬(l.length = 0 ∨ l.all Option.isNone) := by
      rintro (h | h)
      · exact absurd hx (by simp [List.length_eq_zero.mp h])
      · have hall := List.all_eq_true.mp h x hx
        cases x with
        | none => simp at hxs
        | some v => simp at hall
    unfold Energy.aggregate
    rw [if_neg hc1, if_pos hnone]
  · rintro rfl hne
    obtain ⟨e, es', rfl⟩ := List.exists_cons_of_ne_nil hne
    have hc1 : ¬(((e :: es').map some).length = 0 ∨ ((e :: es').map some).all Option.isNone) := by
      simp
    have hc2 : ¬(((e :: es').map some).any Option.isNone) := by simp
    refine ⟨{ unit := ENERGY_UNIT
              cpu := listMax e.cpu (es'.map Energy.cpu)
              ram := listMax e.ram (es'.map Energy.ram)
              gpu := listMax e.gpu (es'.map Energy.gpu)
              total := listMax e.total (es'.map Energy.total) }, ?_, ?_, ?_, ?_, ?_⟩
    · unfold Energy.aggregate
      rw [if_neg hc1, if_neg hc2, filterMap_id_map_some]
    · exact listMax_isMaxOf e.cpu (es'.map Energy.cpu)
    · exact listMax_isMaxOf e.gpu (es'.map Energy.gpu)
    · exact listMax_isMaxOf e.ram (es'.map Energy.ram)
    · exact listMax_isMaxOf e.total (es'.map Energy.total)

/-- C1 witness: the spec's worked example, `E1 = (cpu 1, gpu 2, ram 1, total 4)`
and `E2 = (cpu 3, gpu 1, ram 2, total 6)`, aggregated component-wise. -/
theorem C1_energy_aggregate_componentwise_max_witness :
    Energy.aggregate ([] : List (Option Energy)) = Except.ok none
    ∧ Energy.aggregate [some ⟨"kWh", 1, 1, 2, 4⟩, none]
        = Except.error "Some energy measurements are missing"
    ∧ (∃ a, Energy.aggregate [some ⟨"kWh", 1, 1, 2, 4⟩, some ⟨"kWh", 3, 2, 1, 6⟩]
          = Except.ok (some a)
        ∧ IsMaxOf a.cpu [1, 3] ∧ IsMaxOf a.gpu [2, 1]
        ∧ IsMaxOf a.ram [1, 2] ∧ IsMaxOf a.total [4, 6])
    ∧ Energy.aggregate [some ⟨"kWh", 1, 1, 2, 4⟩, some ⟨"kWh", 3, 2, 1, 6⟩]
        = Except.ok (some ⟨"kWh", 3, 2, 2, 6⟩) := by
  refine ⟨(C1_energy_aggregate_componentwise_max [] []).1 (Or.inl rfl),
    (C1_energy_aggregate_componentwise_max [some ⟨"kWh", 1, 1, 2, 4⟩, none] []).2.1
      ⟨by decide, by decide⟩,
    (C1_energy_aggregate_componentwise_max _ [⟨"kWh", 1, 1, 2, 4⟩, ⟨"kWh", 3, 2, 1, 6⟩]).2.2
      rfl (by decide),
    by decide⟩

/-- C2: `Latency.aggregate` returns an absent result on an empty or all-absent
input list, raises when present and absent inputs are mixed, and otherwise
returns `from_values` of the concatenation (in input order) of the inputs'
`values` with the first input's unit — the mean being recomputed from the
concatenated samples. -/
theorem C2_latency_aggregate_concatenates (l : List (Option Latency)) (x : Latency)
    (ls : List Latency) :
    ((l = [] ∨ l.all Option.isNone) → Latency.aggregate l = Except.ok none)
    ∧ ((l.any Option.isNone ∧ l.any Option.isSome) →
        Latency.aggregate l = Except.error "Some latency measurements are missing")
    ∧ (l = (x :: ls).map some →
        Latency.aggregate l
            = Except.ok (some (Latency.from_values ((x :: ls).map Latency.values).flatten x.unit))
          ∧ (((x :: ls).map Latency.values).flatten ≠ [] →
              (Latency.from_values ((x :: ls).map Latency.values).flatten x.unit).mean
                = (((x :: ls).map Latency.values).flatten).sum
                    / ((((x :: ls).map Latency.values).flatten).length : Rat))) := by
  refine ⟨?_, ?_, ?_⟩
  · intro h
    have hcond : l.length = 0 ∨ l.all Option.isNone := by
      rcases h with h | h
      · exact Or.inl (by simp [h])
      · exact Or.inr h
    unfold Latency.aggregate
    rw [if_pos hcond]
  · rintro ⟨hnone, hsome⟩
    obtain ⟨y, hy, hys⟩ := List.any_eq_true.mp hsome
    have hc1 : ¬(l.length = 0 ∨ l.all Option.isNone) := by
      rintro (h | h)
      · exact absurd hy (by simp [List.length_eq_zero.mp h])
      · have hall := List.all_eq_true.mp h y hy
        cases y with
        | none => simp at hys
        | some v => simp at hall
    unfold Latency.aggregate
    rw [if_neg hc1, if_pos hnone]
  · rintro rfl
    have hc1 : ¬((((x :: ls)).map some).length = 0 ∨ ((x :: ls).map some).all Option.isNone) := by
      simp
    have hc2 : ¬(((x :: ls).map some).any Option.isNone) := by simp
    constructor
    · unfold Latency.aggregate
      rw [if_neg hc1, if_neg hc2, filterMap_id_map_some]
      rfl
    · intro hne
      unfold Latency.from_values
      have hpos : 0 < (((x :: ls).map Latency.values).flatten).length :=
        List.length_pos.mpr hne
      simp only [hpos, if_pos]

/-- C2 witness: the spec's worked example, `A.values = [1, 2]` and
`B.values = [3]`, aggregated into `values = [1, 2, 3]` with mean `2`, plus the
empty and mixed cases at concrete inputs. -/
theorem C2_latency_aggregate_concatenates_witness :
    Latency.aggregate ([] : List (Option Latency)) = Except.ok none
    ∧ Latency.aggregate [some ⟨"s", 0, 0, [1, 2]⟩, none]
        = Except.error "Some latency measurements are missing"
    ∧ Latency.aggregate [some ⟨"s", 0, 0, [1, 2]⟩, some ⟨"s", 0, 0, [3]⟩]
        = Except.ok (some (Latency.from_values [1, 2, 3] "s"))
    ∧ (Latency.from_values [1, 2, 3] "s").mean = 2 := by
  have h3 := (C2_latency_aggregate_concatenates
    [some ⟨"s", 0, 0, [1, 2]⟩, some ⟨"s", 0, 0, [3]⟩]
    ⟨"s", 0, 0, [1, 2]⟩ [⟨"s", 0, 0, [3]⟩]).2.2 rfl
  refine ⟨(C2_latency_aggregate_concatenates [] ⟨"s", 0, 0, []⟩ []).1 (Or.inl rfl),
    (C2_latency_aggregate_concatenates [some ⟨"s", 0, 0, [1, 2]⟩, none]
      ⟨"s", 0, 0, []⟩ []).2.1 ⟨by simp, by simp⟩,
    h3.1, ?_⟩
  have hmean := h3.2 (by simp)
  rw [show (((⟨"s", 0, 0, [1, 2]⟩ :: [(⟨"s", 0, 0, [3]⟩ : Latency)]).map
      Latency.values).flatten : List Rat) = [1, 2, 3] from rfl] at hmean
  rw [hmean]
  norm_num

/-- C3: if any of the `nproc` expected rank report files is missing, the gather
step raises whatever the child's exit code was; it returns an aggregation only
when every report file exists, and then aggregates exactly the full rank-ordered
list of reports, never a partial set. -/
theorem C3_gather_requires_all_reports {α : Type} (nproc : Nat) (exitcode : Int)
    (reportFile : Nat → Option α) :
    ((∃ r, r < nproc ∧ reportFile r = none) →
      ∃ m, TorchrunLauncher.gatherStep nproc exitcode reportFile = LaunchOutcome.error m)
    ∧ (∀ reports, TorchrunLauncher.gatherStep nproc exitcode reportFile
          = LaunchOutcome.aggregated reports →
        (∀ r, r < nproc → (reportFile r).isSome)
          ∧ reports = (List.range nproc).filterMap reportFile) := by
  constructor
  · rintro ⟨r, hr, hnone⟩
    have hc : ¬((List.range nproc).all (fun q => (reportFile q).isSome) = true) := by
      intro hall
      have := List.all_eq_true.mp hall r (List.mem_range.mpr hr)
      rw [hnone] at this
      exact Bool.noConfusion this
    unfold TorchrunLauncher.gatherStep
    rw [if_neg hc]
    by_cases hz : exitcode ≠ 0
    · rw [if_pos hz]; exact ⟨_, rfl⟩
    · rw [if_neg hz]; exact ⟨_, rfl⟩
  · intro reports heq
    by_cases hc : (List.range nproc).all (fun q => (reportFile q).isSome) = true
    · constructor
      · intro r hr
        exact List.all_eq_true.mp hc r (List.mem_range.mpr hr)
      · unfold TorchrunLauncher.gatherStep at heq
        rw [if_pos hc] at heq
        exact (LaunchOutcome.aggregated.injEq _ _).mp heq.symm
    · exfalso
      unfold TorchrunLauncher.gatherStep at heq
      rw [if_neg hc] at heq
      by_cases hz : exitcode ≠ 0
      · rw [if_pos hz] at heq; exact LaunchOutcome.noConfusion heq
      · rw [if_neg hz] at heq; exact LaunchOutcome.noConfusion heq

/-- C3 witness: three expected rank reports of which only ranks 0 and 1 exist,
child exit code 0 — the gather step raises instead of aggregating two reports. -/
theorem C3_gather_requires_all_reports_witness :
    (∃ m, TorchrunLauncher.gatherStep 3 0 (fun r => if r < 2 then some (0 : Nat) else none)
        = LaunchOutcome.error m)
    ∧ TorchrunLauncher.gatherStep 3 0 (fun r => if r < 2 then some (0 : Nat) else none)
        = LaunchOutcome.error "Could not retrieve report from isolated process." :=
  ⟨(C3_gather_requires_all_reports 3 0 (fun r => if r < 2 then some (0 : Nat) else none)).1
      ⟨2, by decide, by decide⟩,
    by decide⟩

/-- C4 counterexample: with one expected rank whose report file exists and a
child exit code of 1 (non-zero), the gather step returns an aggregated report
instead of surfacing a failure — the exit code is only inspected when some
report file is missing. -/
theorem C4_counterexample :
    TorchrunLauncher.gatherStep 1 1 (fun _ => some (0 : Nat)) = LaunchOutcome.aggregated [0]
    ∧ (1 : Int) ≠ 0
    ∧ ∀ m, TorchrunLauncher.gatherStep 1 1 (fun _ => some (0 : Nat)) ≠ LaunchOutcome.error m := by
  refine ⟨by decide, by decide, ?_⟩
  intro m h
  rw [show TorchrunLauncher.gatherStep 1 1 (fun _ => some (0 : Nat))
      = LaunchOutcome.aggregated [0] from by decide] at h
  exact LaunchOutcome.noConfusion h

/-- C4 amended: a non-zero child exit code is surfaced as a launch failure
exactly when some expected rank report file is missing; when all report files
exist, the gather step aggregates and returns the reports regardless of the
child's exit code. -/
theorem C4_nonzero_exit_surfaced_only_without_reports {α : Type} (nproc : Nat) (exitcode : Int)
    (reportFile : Nat → Option α) :
    (exitcode ≠ 0 → (∃ r, r < nproc ∧ reportFile r = none) →
      TorchrunLauncher.gatherStep nproc exitcode reportFile
        = LaunchOutcome.error ("Process exited with non-zero code " ++ toString exitcode ++ "."))
    ∧ ((∀ r, r < nproc → (reportFile r).isSome) →
      TorchrunLauncher.gatherStep nproc exitcode reportFile
        = LaunchOutcome.aggregated ((List.range nproc).filterMap reportFile)) := by
  constructor
  · rintro hz ⟨r, hr, hnone⟩
    have hc : ¬((List.range nproc).all (fun q => (reportFile q).isSome) = true) := by
      intro hall
      have := List.all_eq_true.mp hall r (List.mem_range.mpr hr)
      rw [hnone] at this
      exact Bool.noConfusion this
    unfold TorchrunLauncher.gatherStep
    rw [if_neg hc, if_pos hz]
  · intro hall
    have hc : (List.range nproc).all (fun q => (reportFile q).isSome) = true :=
      List.all_eq_true.mpr (fun r hr => hall r (List.mem_range.mp hr))
    unfold TorchrunLauncher.gatherStep
    rw [if_pos hc]

/-- C4 amended witness: two ranks, exit code 7, rank 1's report missing — the
gather step raises the non-zero-exit error; and with both reports present and
exit code 7 it aggregates both reports. -/
theorem C4_nonzero_exit_surfaced_only_without_reports_witness :
    TorchrunLauncher.gatherStep 2 7 (fun r => if r = 0 then some (5 : Nat) else none)
        = LaunchOutcome.error "Process exited with non-zero code 7."
    ∧ TorchrunLauncher.gatherStep 2 7 (fun r => some r)
        = LaunchOutcome.aggregated [0, 1] :=
  ⟨(C4_nonzero_exit_surfaced_only_without_reports 2 7
      (fun r => if r = 0 then some (5 : Nat) else none)).1 (by decide) ⟨1, by decide, by decide⟩,
    (C4_nonzero_exit_surfaced_only_without_reports 2 7 (fun r => some r)).2
      (fun r _ => rfl)⟩

/-- C5: for a non-empty sample list `Latency.from_values` sets
`mean = sum(values)/len(values)`; with fewer than two samples (the empty list
and a single sample) `stdev = 0`; with at least two samples `stdev` is the
population standard deviation `sqrt(sum((v - mean)**2)/len(values))`. -/
theorem C5_from_values_mean_and_population_stdev (values : List Rat) (unit : String) :
    (values ≠ [] → (Latency.from_values values unit).mean
        = values.sum / (values.length : Rat))
    ∧ (values.length < 2 → (Latency.from_values values unit).stdev = 0)
    ∧ (2 ≤ values.length →
        (Latency.from_values values unit).stdev
          = Real.sqrt ((((values.map
              (fun v => (v - values.sum / (values.length : Rat)) ^ 2)).sum
                / (values.length : Rat) : Rat) : Real))) := by
  refine ⟨?_, ?_, ?_⟩
  · intro h
    have h0 : 0 < values.length := List.length_pos.mpr h
    unfold Latency.from_values
    simp only [h0, if_pos]
  · intro h
    have h1 : ¬(values.length > 1) := by omega
    unfold Latency.from_values
    simp only [if_neg h1]
  · intro h
    have h0 : 0 < values.length := by omega
    have h1 : 1 < values.length := by omega
    unfold Latency.from_values
    simp only [h0, h1, if_pos]

/-- C5 witness: a single sample has its value as mean and stdev `0`; the
two-sample list `[1, 3]` has population stdev `sqrt(1)`. -/
theorem C5_from_values_mean_and_population_stdev_witness :
    (Latency.from_values [5] "s").mean = 5
    ∧ (Latency.from_values [5] "s").stdev = 0
    ∧ (Latency.from_values [1, 3] "s").stdev = Real.sqrt ((1 : Rat) : Real) := by
  obtain ⟨h1, h2, -⟩ := C5_from_values_mean_and_population_stdev [5] "s"
  obtain ⟨-, -, h3⟩ := C5_from_values_mean_and_population_stdev [1, 3] "s"
  refine ⟨?_, h2 (by norm_num), ?_⟩
  · rw [h1 (by simp)]; norm_num
  · rw [h3 (by norm_num)]
    congr 1
    norm_num

/-- C6: `Throughput.aggregate` raises on an empty input list and when any input
is absent, and otherwise sums the inputs' values; `Efficiency.aggregate` raises
on an empty input list and when any input is absent, and otherwise takes the
arithmetic mean of the inputs' values. -/
theorem C6_throughput_sums_efficiency_averages
    (ts : List (Option Throughput)) (t0 : Throughput) (ts' : List Throughput)
    (fs : List (Option Efficiency)) (e0 : Efficiency) (es' : List Efficiency) :
    (ts = [] → Throughput.aggregate ts = Except.error "No throughput measurements to aggregate")
    ∧ (ts.any Option.isNone →
        Throughput.aggregate ts = Except.error "Some throughput measurements are missing")
    ∧ (ts = (t0 :: ts').map some →
        Throughput.aggregate ts
          = Except.ok { unit := t0.unit, value := ((t0 :: ts').map Throughput.value).sum })
    ∧ (fs = [] → Efficiency.aggregate fs = Except.error "No efficiency measurements to aggregate")
    ∧ (fs.any Option.isNone →
        Efficiency.aggregate fs = Except.error "Some efficiency measurements are None")
    ∧ (fs = (e0 :: es').map some →
        Efficiency.aggregate fs
          = Except.ok { unit := e0.unit,
                        value := ((e0 :: es').map Efficiency.value).sum
                                   / (((e0 :: es').length : Nat) : Rat) }) := by
  refine ⟨?_, ?_, ?_, ?_, ?_, ?_⟩
  · rintro rfl
    rfl
  · intro hnone
    obtain ⟨y, hy, -⟩ := List.any_eq_true.mp hnone
    have hlen : ¬(ts.length = 0) := by
      intro h
      exact absurd hy (by simp [List.length_eq_zero.mp h])
    unfold Throughput.aggregate
    rw [if_neg hlen, if_pos hnone]
  · rintro rfl
    have hlen : ¬(((t0 :: ts').map some).length = 0) := by simp
    have hnone : ¬(((t0 :: ts').map some).any Option.isNone = true) := by simp
    unfold Throughput.aggregate
    rw [if_neg hlen, if_neg hnone]
    simp [filterMap_id_map_some]
  · rintro rfl
    rfl
  · intro hnone
    obtain ⟨y, hy, -⟩ := List.any_eq_true.mp hnone
    have hlen : ¬(fs.length = 0) := by
      intro h
      exact absurd hy (by simp [List.length_eq_zero.mp h])
    unfold Efficiency.aggregate
    rw [if_neg hlen, if_pos hnone]
  · rintro rfl
    have hlen : ¬(((e0 :: es').map some).length = 0) := by simp
    have hnone : ¬(((e0 :: es').map some).any Option.isNone = true) := by simp
    unfold Efficiency.aggregate
    rw [if_neg hlen, if_neg hnone]
    simp [filterMap_id_map_some]

/-- C6 witness: two present throughputs `2` and `3` aggregate to their sum
`5`; two present efficiencies `2` and `4` aggregate to their mean `3`; the
empty list and a list containing an absent input each raise. -/
theorem C6_throughput_sums_efficiency_averages_witness :
    Throughput.aggregate [] = Except.error "No throughput measurements to aggregate"
    ∧ Throughput.aggregate [some ⟨"samples/s", 2⟩, none]
        = Except.error "Some throughput measurements are missing"
    ∧ Throughput.aggregate [some ⟨"samples/s", 2⟩, some ⟨"samples/s", 3⟩]
        = Except.ok ⟨"samples/s", 5⟩
    ∧ Efficiency.aggregate [] = Except.error "No efficiency measurements to aggregate"
    ∧ Efficiency.aggregate [some ⟨"samples/kWh", 2⟩, none]
        = Except.error "Some efficiency measurements are None"
    ∧ Efficiency.aggregate [some ⟨"samples/kWh", 2⟩, some ⟨"samples/kWh", 4⟩]
        = Except.ok ⟨"samples/kWh", 3⟩ := by
  obtain ⟨ha, -, -, hb, -, -⟩ := C6_throughput_sums_efficiency_averages
    [] ⟨"samples/s", 0⟩ [] [] ⟨"samples/kWh", 0⟩ []
  obtain ⟨-, hc, -, -, hd, -⟩ := C6_throughput_sums_efficiency_averages
    [some ⟨"samples/s", 2⟩, none] ⟨"samples/s", 0⟩ []
    [some ⟨"samples/kWh", 2⟩, none] ⟨"samples/kWh", 0⟩ []
  obtain ⟨-, -, he, -, -, hf⟩ := C6_throughput_sums_efficiency_averages
    [some ⟨"samples/s", 2⟩, some ⟨"samples/s", 3⟩] ⟨"samples/s", 2⟩ [⟨"samples/s", 3⟩]
    [some ⟨"samples/kWh", 2⟩, some ⟨"samples/kWh", 4⟩] ⟨"samples/kWh", 2⟩ [⟨"samples/kWh", 4⟩]
  refine ⟨ha rfl, hc (by decide), ?_, hb rfl, hd (by decide), ?_⟩
  · have h5 : (([⟨"samples/s", 2⟩, ⟨"samples/s", 3⟩] : List Throughput).map
        Throughput.value).sum = (5 : Rat) := by
      simp only [List.map_cons, List.map_nil, List.sum_cons, List.sum_nil]
      norm_num
    rw [he rfl, h5]
  · have h6 : (([⟨"samples/kWh", 2⟩, ⟨"samples/kWh", 4⟩] : List Efficiency).map
        Efficiency.value).sum
          / (((([⟨"samples/kWh", 2⟩, ⟨"samples/kWh", 4⟩] : List Efficiency).length : Nat)) : Rat)
        = (3 : Rat) := by
      simp only [List.map_cons, List.map_nil, List.sum_cons, List.sum_nil, List.length_cons,
        List.length_nil]
      norm_num
    rw [hf rfl, h6]

/-- C7 counterexample: starting from an empty tracker, a `track()` region whose
body raises leaves an orphaned start timestamp, and a subsequent
`get_latency()` raises an `IndexError` instead of computing statistics as if
the region had never contributed a sample (which would yield the empty
latency, as it does on the untouched tracker). -/
theorem C7_counterexample :
    LatencyTracker.get_latency (LatencyTracker.trackCpuRaise ⟨[], []⟩ 0)
        = Except.error "IndexError: list index out of range"
    ∧ LatencyTracker.get_latency ⟨[], []⟩ = Except.ok (Latency.from_values [] LATENCY_UNIT)
    ∧ (Except.error "IndexError: list index out of range"
        ≠ (Except.ok (Latency.from_values [] LATENCY_UNIT) : Except String Latency)) := by
  refine ⟨?_, ?_, ?_⟩
  · simp [LatencyTracker.get_latency, LatencyTracker.trackCpuRaise]
  · simp [LatencyTracker.get_latency]
  · simp

/-- C7 amended: when the body of a `track()` region raises on the host-clock
path, the end marker is not recorded and the exception propagates, but the
already-recorded start marker is not discarded: it stays in `start_events`,
and from a balanced tracker state any subsequent `get_latency()` raises an
`IndexError` rather than computing statistics without that region. -/
theorem C7_raising_region_leaves_orphan_start (s : TrackerState) (t : Rat) :
    (LatencyTracker.trackCpuRaise s t).end_events = s.end_events
    ∧ (LatencyTracker.trackCpuRaise s t).start_events = s.start_events ++ [t]
    ∧ (s.end_events.length = s.start_events.length →
        LatencyTracker.get_latency (LatencyTracker.trackCpuRaise s t)
          = Except.error "IndexError: list index out of range") := by
  refine ⟨rfl, rfl, ?_⟩
  intro hbal
  unfold LatencyTracker.get_latency LatencyTracker.trackCpuRaise
  have hlt : s.end_events.length < (s.start_events ++ [t]).length := by
    simp [hbal]
  rw [if_pos hlt]

/-- C7 amended witness: one completed region `[1, 2]` followed by a raising
region started at `3`. -/
theorem C7_raising_region_leaves_orphan_start_witness :
    (LatencyTracker.trackCpuRaise ⟨[1], [2]⟩ 3).end_events = [2]
    ∧ (LatencyTracker.trackCpuRaise ⟨[1], [2]⟩ 3).start_events = [1, 3]
    ∧ LatencyTracker.get_latency (LatencyTracker.trackCpuRaise ⟨[1], [2]⟩ 3)
        = Except.error "IndexError: list index out of range" := by
  obtain ⟨h1, h2, h3⟩ := C7_raising_region_leaves_orphan_start ⟨[1], [2]⟩ 3
  exact ⟨h1, h2, h3 rfl⟩

/-- C8 counterexample: `Throughput.from_latency` guards with `mean > 0`, not
`mean == 0`: at a latency of mean `-1` with volume `5` the code returns `0`
while the claim as stated requires `volume / mean = -5`. -/
theorem C8_counterexample :
    ¬ (∀ (lat : Latency) (volume : Int) (unit : String),
        (Throughput.from_latency lat volume unit).value
          = if lat.mean = 0 then 0 else (volume : Rat) / lat.mean) := by
  intro h
  have hc := h ⟨"s", -1, 0, [-1]⟩ 5 "samples/s"
  norm_num [Throughput.from_latency] at hc

/-- C8 amended: `Throughput.from_latency` returns `0` whenever the latency's
mean is not strictly positive (in particular when it is `0`, so there is no
division by zero) and `volume / mean` when the mean is strictly positive;
symmetrically, `Efficiency.from_energy` returns `0` whenever the total energy
is not strictly positive and `volume / total` when it is strictly positive. -/
theorem C8_division_guarded (lat : Latency) (en : Energy) (volume : Int) (unit : String) :
    (lat.mean ≤ 0 → (Throughput.from_latency lat volume unit).value = 0)
    ∧ (0 < lat.mean →
        (Throughput.from_latency lat volume unit).value = (volume : Rat) / lat.mean)
    ∧ (en.total ≤ 0 → (Efficiency.from_energy en volume unit).value = 0)
    ∧ (0 < en.total →
        (Efficiency.from_energy en volume unit).value = (volume : Rat) / en.total) := by
  refine ⟨?_, ?_, ?_, ?_⟩
  · intro h
    unfold Throughput.from_latency
    rw [if_neg (not_lt.mpr h)]
  · intro h
    unfold Throughput.from_latency
    rw [if_pos h]
  · intro h
    unfold Efficiency.from_energy
    rw [if_neg (not_lt.mpr h)]
  · intro h
    unfold Efficiency.from_energy
    rw [if_pos h]

/-- C8 amended witness: zero mean gives throughput `0` without raising, mean
`2` with volume `10` gives `5`; zero total energy gives efficiency `0`, total
`2` with volume `10` gives `5`. -/
theorem C8_division_guarded_witness :
    (Throughput.from_latency ⟨"s", 0, 0, []⟩ 10 "samples/s").value = 0
    ∧ (Throughput.from_latency ⟨"s", 2, 0, [2]⟩ 10 "samples/s").value = 5
    ∧ (Efficiency.from_energy ⟨"kWh", 0, 0, 0, 0⟩ 10 "samples/kWh").value = 0
    ∧ (Efficiency.from_energy ⟨"kWh", 1, 1, 0, 2⟩ 10 "samples/kWh").value = 5 := by
  obtain ⟨h1, -, h3, -⟩ := C8_division_guarded ⟨"s", 0, 0, []⟩ ⟨"kWh", 0, 0, 0, 0⟩ 10 "samples/s"
  obtain ⟨-, h2, -, h4⟩ := C8_division_guarded ⟨"s", 2, 0, [2]⟩ ⟨"kWh", 1, 1, 0, 2⟩ 10 "samples/s"
  refine ⟨h1 le_rfl, ?_, ?_, ?_⟩
  · rw [show (Throughput.from_latency ⟨"s", 2, 0, [2]⟩ 10 "samples/s").value
        = ((10 : Int) : Rat) / (2 : Rat) from h2 (by norm_num)]
    norm_num
  · exact (C8_division_guarded ⟨"s", 0, 0, []⟩ ⟨"kWh", 0, 0, 0, 0⟩ 10 "samples/kWh").2.2.1 le_rfl
  · rw [show (Efficiency.from_energy ⟨"kWh", 1, 1, 0, 2⟩ 10 "samples/kWh").value
        = ((10 : Int) : Rat) / (2 : Rat) from
          (C8_division_guarded ⟨"s", 2, 0, [2]⟩ ⟨"kWh", 1, 1, 0, 2⟩ 10 "samples/kWh").2.2.2
            (by norm_num)]
    norm_num

/-- C9: none of `Latency.aggregate`, `Throughput.aggregate` and
`Efficiency.aggregate` checks that the input units agree: on any non-empty
all-present input list — the units being arbitrary and possibly different —
each returns successfully, with the unit taken from the first input. -/
theorem C9_no_unit_agreement_check (x : Latency) (xs : List Latency)
    (t0 : Throughput) (ts' : List Throughput) (e0 : Efficiency) (es' : List Efficiency) :
    (∃ a, Latency.aggregate ((x :: xs).map some) = Except.ok (some a) ∧ a.unit = x.unit)
    ∧ (∃ b, Throughput.aggregate ((t0 :: ts').map some) = Except.ok b ∧ b.unit = t0.unit)
    ∧ (∃ c, Efficiency.aggregate ((e0 :: es').map some) = Except.ok c ∧ c.unit = e0.unit) := by
  refine ⟨⟨Latency.from_values ((x :: xs).map Latency.values).flatten x.unit, ?_, rfl⟩,
    ⟨{ unit := t0.unit, value := ((t0 :: ts').map Throughput.value).sum }, ?_, rfl⟩,
    ⟨{ unit := e0.unit,
       value := ((e0 :: es').map Efficiency.value).sum / (((e0 :: es').length : Nat) : Rat) },
      ?_, rfl⟩⟩
  · have hc1 : ¬((((x :: xs)).map some).length = 0 ∨ ((x :: xs).map some).all Option.isNone) := by
      simp
    have hc2 : ¬(((x :: xs).map some).any Option.isNone) := by simp
    unfold Latency.aggregate
    rw [if_neg hc1, if_neg hc2, filterMap_id_map_some]
    rfl
  · have hlen : ¬(((t0 :: ts').map some).length = 0) := by simp
    have hnone : ¬(((t0 :: ts').map some).any Option.isNone = true) := by simp
    unfold Throughput.aggregate
    rw [if_neg hlen, if_neg hnone]
    simp [filterMap_id_map_some]
  · have hlen : ¬(((e0 :: es').map some).length = 0) := by simp
    have hnone : ¬(((e0 :: es').map some).any Option.isNone = true) := by simp
    unfold Efficiency.aggregate
    rw [if_neg hlen, if_neg hnone]
    simp [filterMap_id_map_some]

/-- C10: `Latency.from_values` on the empty list returns mean `0`, stdev `0`
and empty `values` instead of raising; a host-clock tracker with zero
completed regions returns exactly that empty `Latency` from `get_latency()`,
and `get_throughput` on it returns value `0`. -/
theorem C10_empty_tracker_zero_throughput (volume : Int) (unit : String) :
    (Latency.from_values [] LATENCY_UNIT).mean = 0
    ∧ (Latency.from_values [] LATENCY_UNIT).stdev = 0
    ∧ (Latency.from_values [] LATENCY_UNIT).values = []
    ∧ LatencyTracker.get_latency ⟨[], []⟩ = Except.ok (Latency.from_values [] LATENCY_UNIT)
    ∧ LatencyTracker.get_throughput ⟨[], []⟩ volume unit
        = Except.ok { unit := unit, value := 0 } := by
  refine ⟨?_, ?_, rfl, ?_, ?_⟩
  · simp [Latency.from_values]
  · simp [Latency.from_values]
  · simp [LatencyTracker.get_latency]
  · simp [LatencyTracker.get_throughput, LatencyTracker.get_latency, Throughput.from_latency,
      Latency.from_values, Except.map]
